import Mathlib

/-!
Shallow embedding of the automatic fixture registry
(`src/fixtures/registry.ts`) and of the strict-mode lifecycle
orchestrator (`src/setup/strict-mode.ts`) of the jest-helpers
repository, together with proofs settling the frozen claims.

Modelling conventions:
* A fixture's asynchronous `setup()` producer is embedded as a fixed
  `Except String (Option α)` value: `Except.error e` models a producer
  that rejects with message `e`, `Except.ok d` a producer that resolves
  to `d`, where `none` models a `null` resolution (the stored `data`
  field has type `T | null` in the source).  `teardown` likewise maps
  the instance to `Except String Unit`.
* Thrown `Error` objects are embedded as their message strings.
* The registry's `Map<string, RegisteredFixture<unknown>>` is embedded
  as an insertion-ordered association list with JavaScript `Map`
  semantics (`mapGet` / `mapSet`: overwrite in place, append if
  absent).
* Logging and the `contextManager.initContext` / `contextManager.run`
  scoping have no effect on registry state (the context store is an
  external collaborator); they are therefore dropped from the
  embedding, and `contextManager.run ctx f` is embedded as `f ()`.
* Each operation additionally returns the list of producer/teardown
  invocations it performs (`Ev`), which lets the theorems speak about
  "the producer is invoked exactly once" and about teardown order.
-/

/-- An observable effect of a registry operation: invocation of a
fixture's setup producer or of its teardown consumer. -/
inductive Ev where
  | setupCall (name : String)
  | teardownCall (name : String)
deriving DecidableEq

/-- Embeds `Fixture<T>` from `src/fixtures/index.ts`: an async setup
producer and a teardown consumer, both fallible.  `setup` resolving to
`none` models a producer that resolves to `null`. -/
structure Fixture (α : Type) where
  setup : Except String (Option α)
  teardown : α → Except String Unit

/-- Embeds the `RegisteredFixture<T>` record of `src/fixtures/registry.ts`:
`data : T | null` becomes `Option α`, `setup : boolean` stays a flag. -/
structure RegisteredFixture (α : Type) where
  fixture : Fixture α
  data : Option α
  setup : Bool

/-- Embeds the mutable state of `AutomaticFixtureRegistry`: the fixture
map and the `cleanupOrder` array. -/
structure AutomaticFixtureRegistry (α : Type) where
  fixtures : List (String × RegisteredFixture α)
  cleanupOrder : List String

/-- JavaScript `Map.get`: first (unique) binding of the key. -/
def mapGet {β : Type} : List (String × β) → String → Option β
  | [], _ => none
  | (k, v) :: rest, key => if k = key then some v else mapGet rest key

/-- JavaScript `Map.set`: overwrite the existing binding in place,
append a new binding otherwise. -/
def mapSet {β : Type} : List (String × β) → String → β → List (String × β)
  | [], key, value => [(key, value)]
  | (k, v) :: rest, key, value =>
    if k = key then (key, value) :: rest else (k, v) :: mapSet rest key value

/-- A single-quote character, used in the registry's error messages. -/
def squote : String := String.singleton (Char.ofNat 39)

/-- Message of the error thrown by `setup` for an unregistered name. -/
def notRegisteredMessage (name : String) : String :=
  "Fixture " ++ squote ++ name ++ squote ++ " not registered"

/-- Message of the error thrown by `get` when a fixture is not set up. -/
def notSetupMessage (name : String) : String :=
  "Fixture " ++ squote ++ name ++ squote ++ " not setup"

/-- Message of the aggregated error thrown by `cleanupAll` when some
teardowns failed: joins the collected messages with `", "`. -/
def aggregateMessage (errors : List String) : String :=
  "Failed to cleanup " ++ toString errors.length ++ " fixture(s): " ++
    String.intercalate ", " errors

/-- Embeds `AutomaticFixtureRegistry.register` (registry.ts lines
29-35): unconditionally stores a fresh record with `data: null` and
`setup: false` under `name`. -/
def AutomaticFixtureRegistry.register {α : Type} (r : AutomaticFixtureRegistry α)
    (name : String) (f : Fixture α) : AutomaticFixtureRegistry α :=
  { r with
    fixtures := mapSet r.fixtures name { fixture := f, data := none, setup := false } }

/-- Embeds `AutomaticFixtureRegistry.setup` (registry.ts lines 40-79).
Returns the produced value (`Except`), the updated registry, and the
producer invocations performed. -/
def AutomaticFixtureRegistry.setup {α : Type} (r : AutomaticFixtureRegistry α)
    (name : String) :
    Except String (Option α) × AutomaticFixtureRegistry α × List Ev :=
  match mapGet r.fixtures name with
  | none => (Except.error (notRegisteredMessage name), r, [])
  | some registered =>
    if registered.setup = true then
      (Except.ok registered.data, r, [])
    else
      match registered.fixture.setup with
      | Except.error e => (Except.error e, r, [Ev.setupCall name])
      | Except.ok data =>
        (Except.ok data,
         { fixtures := mapSet r.fixtures name { registered with data := data, setup := true },
           cleanupOrder := r.cleanupOrder ++ [name] },
         [Ev.setupCall name])

/-- Embeds `AutomaticFixtureRegistry.get` (registry.ts lines 84-90):
fails unless the name is registered, flagged set up, and its data is
non-null. -/
def AutomaticFixtureRegistry.get {α : Type} (r : AutomaticFixtureRegistry α)
    (name : String) : Except String α :=
  match mapGet r.fixtures name with
  | none => Except.error (notSetupMessage name)
  | some registered =>
    if registered.setup = true then
      match registered.data with
      | some d => Except.ok d
      | none => Except.error (notSetupMessage name)
    else Except.error (notSetupMessage name)

/-- Embeds the `for` loop of `cleanupAll` (registry.ts lines 99-131),
applied to the cleanup-order names already reversed.  Returns the
updated fixture map, the collected error messages in encounter order,
and the teardown invocations in encounter order.  An empty name is
skipped (`if (!name) continue` — the empty string is falsy); a name
that is unregistered, not flagged set up, or has null data is skipped;
on teardown success the record's flag and data are cleared, on failure
the error is collected and the record left untouched. -/
def cleanupLoop {α : Type} :
    List String → List (String × RegisteredFixture α) →
    List (String × RegisteredFixture α) × List String × List Ev
  | [], fs => (fs, [], [])
  | name :: rest, fs =>
    if name = "" then cleanupLoop rest fs
    else
      match mapGet fs name with
      | none => cleanupLoop rest fs
      | some registered =>
        if registered.setup = true then
          match registered.data with
          | none => cleanupLoop rest fs
          | some d =>
            match registered.fixture.teardown d with
            | Except.ok _ =>
              let next := cleanupLoop rest
                (mapSet fs name { registered with setup := false, data := none })
              (next.1, next.2.1, Ev.teardownCall name :: next.2.2)
            | Except.error e =>
              let next := cleanupLoop rest fs
              (next.1, e :: next.2.1, Ev.teardownCall name :: next.2.2)
        else cleanupLoop rest fs

/-- Embeds `AutomaticFixtureRegistry.cleanupAll` (registry.ts lines
95-140): walk the cleanup order in reverse, then reset it to empty,
then throw the aggregated error when the collected list is non-empty. -/
def AutomaticFixtureRegistry.cleanupAll {α : Type} (r : AutomaticFixtureRegistry α) :
    Except String Unit × AutomaticFixtureRegistry α × List Ev :=
  let walked := cleanupLoop r.cleanupOrder.reverse r.fixtures
  let r2 : AutomaticFixtureRegistry α := { fixtures := walked.1, cleanupOrder := [] }
  if 0 < walked.2.1.length then
    (Except.error (aggregateMessage walked.2.1), r2, walked.2.2)
  else (Except.ok (), r2, walked.2.2)

/-- Embeds `AutomaticFixtureRegistry.clear` (registry.ts lines 145-148). -/
def AutomaticFixtureRegistry.clear {α : Type} (_ : AutomaticFixtureRegistry α) :
    AutomaticFixtureRegistry α :=
  { fixtures := [], cleanupOrder := [] }

/-- Embeds `AutomaticFixtureRegistry.isSetup` (registry.ts lines
153-156): `registered?.setup ?? false`. -/
def AutomaticFixtureRegistry.isSetup {α : Type} (r : AutomaticFixtureRegistry α)
    (name : String) : Bool :=
  match mapGet r.fixtures name with
  | some registered => registered.setup
  | none => false

/-- A cleanup-order entry that the `cleanupAll` walk will actually
tear down: non-empty name, registered, flagged set up, non-null data. -/
def eligible {α : Type} (fs : List (String × RegisteredFixture α)) (name : String) : Bool :=
  (name != "") &&
    (match mapGet fs name with
     | some registered => registered.setup && registered.data.isSome
     | none => false)

/-- The outcome `cleanupAll` observes when tearing down `name` in the
map `fs`: `some e` when the teardown of the current data throws `e`,
`none` when it succeeds (or when the entry would be skipped). -/
def teardownOutcome {α : Type} (fs : List (String × RegisteredFixture α))
    (name : String) : Option String :=
  match mapGet fs name with
  | some registered =>
    match registered.data with
    | some d =>
      match registered.fixture.teardown d with
      | Except.ok _ => none
      | Except.error e => some e
    | none => none
  | none => none

/-- `name` is registered, not yet set up, and its producer resolves to
a non-null value: a successful first `setup name` call is available. -/
def readyFixture {α : Type} (r : AutomaticFixtureRegistry α) (n : String) : Prop :=
  ∃ reg v, mapGet r.fixtures n = some reg ∧ reg.setup = false ∧
    reg.fixture.setup = Except.ok (some v)

/-- A sequence of `setup` calls in the given order, keeping only the
final registry state. -/
def setupSequence {α : Type} (r : AutomaticFixtureRegistry α) :
    List String → AutomaticFixtureRegistry α
  | [] => r
  | name :: rest => setupSequence (r.setup name).2.1 rest

/-!
Event-loop model of the `beforeEach` hook returned by
`createAutomaticFixtureHooks` (registry.ts lines 200-204):

```
const setupPromises = Object.keys(fixtures).map((name) => registry.setup(name));
await Promise.all(setupPromises);
```

`setup` is an async function: calling it runs its body synchronously up
to `await registered.fixture.setup()`, so all producers of
not-yet-set-up fixtures are started in key order; the continuation of
each call (store `data`, set the flag, push onto `cleanupOrder`) runs
when its own producer completes.  On the single-threaded event loop the
continuations therefore run ordered by producer completion time, ties
resolved in start order.  `Promise.all` makes the hook resolve only
after every continuation has run.

The model assigns each producer a duration, computes the stable
completion order of the fixtures whose producers actually start (those
registered and not already set up — the cached-instance check runs
before the first suspension point), and then runs the tail of `setup`
for each, which for a fixture whose cache check already failed is
exactly `AutomaticFixtureRegistry.setup` itself (the keys of a record
are distinct, so no continuation can observe a concurrent call on the
same name).  Rejection messages are collected in completion order; a
non-empty list models `Promise.all` rejecting.
-/

/-- Insert a name into a duration-sorted list, before any strictly
slower name and after all names at most as fast (stable w.r.t. start
order). -/
def insertByDuration (dur : String → Nat) (name : String) :
    List String → List String
  | [] => [name]
  | other :: rest =>
    if dur name < dur other then name :: other :: rest
    else other :: insertByDuration dur name rest

/-- Stable sort of the started producers by completion time: the order
in which their continuations run on the event loop. -/
def completionOrder (dur : String → Nat) : List String → List String
  | [] => []
  | name :: rest => insertByDuration dur name (completionOrder dur rest)

/-- Run the continuation of each completed producer in completion
order; collect rejection messages. -/
def runCompletions {α : Type} :
    AutomaticFixtureRegistry α → List String →
    AutomaticFixtureRegistry α × List String
  | r, [] => (r, [])
  | r, name :: rest =>
    let step := r.setup name
    match step.1 with
    | Except.ok _ => runCompletions step.2.1 rest
    | Except.error e =>
      let next := runCompletions step.2.1 rest
      (next.1, e :: next.2)

/-- Event-loop model of the concurrent `beforeEach` hook: `names` are
the keys of the fixtures record in declaration order, `dur` the
duration of each producer.  Returns the registry state once
`Promise.all` settles and the collected rejection messages (empty list:
the hook resolves). -/
def beforeEachConcurrent {α : Type} (r : AutomaticFixtureRegistry α)
    (dur : String → Nat) (names : List String) :
    AutomaticFixtureRegistry α × List String :=
  let started := names.filter (fun n =>
    match mapGet r.fixtures n with
    | some registered => !registered.setup
    | none => false)
  runCompletions r (completionOrder dur started)

/-!
Embedding of `StrictModeLifecycle.afterEach`
(`src/setup/strict-mode.ts` lines 394-430) and of the collaborator
state it touches.
-/

/-- The `timerPolicy` lifecycle guard option. -/
inductive TimerPolicy where
  | fake
  | real
deriving DecidableEq

/-- Embeds the `LifecycleGuards` record of strict-mode.ts. -/
structure LifecycleGuards where
  timerPolicy : TimerPolicy
  failOnTimerLeaks : Bool
  failOnConsoleNoise : Bool

/-- A captured console entry, as inspected by the console-noise guard:
either an object with `level`/`message` fields, or any other shape
(rendered through `JSON.stringify`, embedded as an opaque string). -/
inductive ConsoleEntry where
  | leveled (level : String) (message : String)
  | raw (json : String)
deriving DecidableEq

/-- The text the guard renders for one entry (strict-mode.ts lines
401-405). -/
def entryText : ConsoleEntry → String
  | ConsoleEntry.leveled level message => level ++ ": " ++ message
  | ConsoleEntry.raw json => json

/-- Message of the error thrown by the console-noise guard. -/
def noiseMessage (entries : List ConsoleEntry) : String :=
  "Console output detected in test: " ++
    String.intercalate "; " (entries.map entryText)

/-- Message of the error thrown by the timer-leak guard. -/
def timerLeakMessage (count : Nat) : String :=
  "Detected " ++ toString count ++
    " pending timer(s). Ensure fake timers are flushed or disabled."

/-- The observable world `afterEach` acts on: the fixture registry
behind `fixtureHooks.afterEach` (which is `registry.cleanupAll`), the
console-capture handle state of `setupContextAwareConsole` (`none`
models `consoleCapture === null`, `some entries` a live capture whose
`entries` array the guard reads through `extractConsoleEntries`), an
instrumentation counter of how often the capture handle's `afterEach`
body ran, and the Jest timer state (`jest.useRealTimers` /
`jest.getTimerCount` / `jest.clearAllTimers`). -/
structure LifecycleWorld (α : Type) where
  registry : AutomaticFixtureRegistry α
  capture : Option (List ConsoleEntry)
  consoleAfterEachRuns : Nat
  usingFakeTimers : Bool
  pendingTimers : Nat

/-- Embeds the `afterEach` handle of `setupContextAwareConsole`
(`src/console/context-aware.ts` lines 55-64): export/clear the capture
and null the handle.  The counter records that the hook body ran. -/
def consoleAfterEachModel {α : Type} (w : LifecycleWorld α) : LifecycleWorld α :=
  { w with capture := none, consoleAfterEachRuns := w.consoleAfterEachRuns + 1 }

/-- Steps (d)-(e) of `StrictModeLifecycle.afterEach` (strict-mode.ts
lines 419-429): the timer-leak guard (clear all timers, then throw)
followed by the trailing `jest.useRealTimers()`.  `evs` carries the
teardown invocations already performed by step (c). -/
def afterEachFromD {α : Type} (guards : LifecycleGuards) (w : LifecycleWorld α)
    (evs : List Ev) : Except String Unit × LifecycleWorld α × List Ev :=
  if guards.timerPolicy = TimerPolicy.fake ∧ guards.failOnTimerLeaks = true then
    if 0 < w.pendingTimers then
      (Except.error (timerLeakMessage w.pendingTimers),
       { w with pendingTimers := 0 }, evs)
    else (Except.ok (), { w with usingFakeTimers := false }, evs)
  else (Except.ok (), { w with usingFakeTimers := false }, evs)

/-- Steps (b)-(e) of `StrictModeLifecycle.afterEach` (strict-mode.ts
lines 411-429): the console capture's own `afterEach`, then fixture
cleanup (whose thrown aggregated error aborts the remaining steps),
then the timer steps. -/
def afterEachFromB {α : Type} (hasConsole hasFixtures : Bool)
    (guards : LifecycleGuards) (w : LifecycleWorld α) :
    Except String Unit × LifecycleWorld α × List Ev :=
  let w1 := if hasConsole = true then consoleAfterEachModel w else w
  if hasFixtures = true then
    let cleaned := w1.registry.cleanupAll
    match cleaned.1 with
    | Except.error e =>
      (Except.error e, { w1 with registry := cleaned.2.1 }, cleaned.2.2)
    | Except.ok _ =>
      afterEachFromD guards { w1 with registry := cleaned.2.1 } cleaned.2.2
  else afterEachFromD guards w1 []

/-- Embeds `StrictModeLifecycle.afterEach` (strict-mode.ts lines
394-430).  Step (a): when a console handle exists and
`failOnConsoleNoise` is set, read the capture (`getCapture` throws on a
null handle) and throw on a non-empty entry list; a thrown error ends
the async function at once — there is no `finally`, so the remaining
steps do not run. -/
def strictAfterEach {α : Type} (hasConsole hasFixtures : Bool)
    (guards : LifecycleGuards) (w : LifecycleWorld α) :
    Except String Unit × LifecycleWorld α × List Ev :=
  if hasConsole = true ∧ guards.failOnConsoleNoise = true then
    match w.capture with
    | none =>
      (Except.error "Console capture not initialized. Call beforeEach first.", w, [])
    | some entries =>
      if 0 < entries.length then (Except.error (noiseMessage entries), w, [])
      else afterEachFromB hasConsole hasFixtures guards w
  else afterEachFromB hasConsole hasFixtures guards w

/-!
Concrete instances used by counterexamples and witnesses.
-/

/-- A fixture whose producer resolves to `v` and whose teardown
succeeds. -/
def okFixture (v : Nat) : Fixture Nat :=
  { setup := Except.ok (some v), teardown := fun _ => Except.ok () }

/-- A fixture whose producer resolves to `v` but whose teardown throws
`msg`. -/
def badTeardownFixture (v : Nat) (msg : String) : Fixture Nat :=
  { setup := Except.ok (some v), teardown := fun _ => Except.error msg }

/-- A fixture whose producer rejects with `msg`. -/
def badSetupFixture (msg : String) : Fixture Nat :=
  { setup := Except.error msg, teardown := fun _ => Except.ok () }

/-- A fixture whose producer resolves to `null`. -/
def nullFixture : Fixture Nat :=
  { setup := Except.ok none, teardown := fun _ => Except.ok () }

/-- A freshly constructed registry. -/
def emptyRegistry : AutomaticFixtureRegistry Nat :=
  { fixtures := [], cleanupOrder := [] }

/-- Fixtures `a`, `b`, `c` registered in that order; `b`'s teardown
throws `"boom"`. -/
def demoRegistered : AutomaticFixtureRegistry Nat :=
  ((emptyRegistry.register "a" (okFixture 1)).register
      "b" (badTeardownFixture 2 "boom")).register "c" (okFixture 3)

/-- The demo registry after successful setups of `a`, `b`, `c` in that
call order. -/
def demoABC : AutomaticFixtureRegistry Nat :=
  setupSequence demoRegistered ["a", "b", "c"]

/-- A registry holding the single fixture `a`, already set up. -/
def demoRegA : AutomaticFixtureRegistry Nat :=
  ((emptyRegistry.register "a" (okFixture 1)).setup "a").2.1

/-- Guard configuration of the `unit` preset: fake timers, fail on
timer leaks, fail on console noise. -/
def demoGuards : LifecycleGuards :=
  { timerPolicy := TimerPolicy.fake, failOnTimerLeaks := true,
    failOnConsoleNoise := true }

/-- A world mid-`afterEach`: one set-up fixture, a live capture holding
one entry, fake timers installed, no pending timers. -/
def noisyWorld : LifecycleWorld Nat :=
  { registry := demoRegA,
    capture := some [ConsoleEntry.leveled "log" "hello"],
    consoleAfterEachRuns := 0,
    usingFakeTimers := true,
    pendingTimers := 0 }

/-- A quiet world: one set-up fixture, a live capture with no entries,
fake timers installed, no pending timers. -/
def quietWorld : LifecycleWorld Nat :=
  { registry := demoRegA,
    capture := some [],
    consoleAfterEachRuns := 0,
    usingFakeTimers := true,
    pendingTimers := 0 }

/-- Fixtures `a` and `b` registered in that order, producers all
succeeding. -/
def slowFastRegistry : AutomaticFixtureRegistry Nat :=
  (emptyRegistry.register "a" (okFixture 1)).register "b" (okFixture 2)

/-- Producer durations of Scenario B: `a` takes 50ms, `b` takes 10ms. -/
def durAB : String → Nat := fun n => if n = "a" then 50 else 10

/-- A registry holding one fixture whose producer rejects. -/
def demoFailing : AutomaticFixtureRegistry Nat :=
  emptyRegistry.register "f" (badSetupFixture "nope")

/-- A registry holding one fixture whose producer resolves to `null`. -/
def demoNull : AutomaticFixtureRegistry Nat :=
  emptyRegistry.register "n" nullFixture

/-!
Lemmas about the map embedding and the cleanup walk.
-/

theorem mapGet_mapSet_self {β : Type} (m : List (String × β)) (k : String) (v : β) :
    mapGet (mapSet m k v) k = some v := by
  induction m with
  | nil => simp [mapSet, mapGet]
  | cons p rest ih =>
    obtain ⟨k0, v0⟩ := p
    by_cases h : k0 = k
    · subst h; simp [mapSet, mapGet]
    · simp [mapSet, mapGet, h, ih]

theorem mapGet_mapSet_ne {β : Type} (m : List (String × β)) (k k' : String) (v : β)
    (h : k' ≠ k) : mapGet (mapSet m k v) k' = mapGet m k' := by
  induction m with
  | nil => simp [mapSet, mapGet, Ne.symm h]
  | cons p rest ih =>
    obtain ⟨k0, v0⟩ := p
    by_cases hk : k0 = k
    · subst hk; simp [mapSet, mapGet, Ne.symm h]
    · simp [mapSet, mapGet, hk, ih]

theorem eligible_mapSet_ne {α : Type} (fs : List (String × RegisteredFixture α))
    (k m : String) (v : RegisteredFixture α) (h : m ≠ k) :
    eligible (mapSet fs k v) m = eligible fs m := by
  simp [eligible, mapGet_mapSet_ne fs k m v h]

theorem teardownOutcome_mapSet_ne {α : Type} (fs : List (String × RegisteredFixture α))
    (k m : String) (v : RegisteredFixture α) (h : m ≠ k) :
    teardownOutcome (mapSet fs k v) m = teardownOutcome fs m := by
  simp [teardownOutcome, mapGet_mapSet_ne fs k m v h]

theorem isSetup_eq_mapGet {α : Type} (r : AutomaticFixtureRegistry α) (name : String) :
    r.isSetup name = ((mapGet r.fixtures name).map RegisteredFixture.setup).getD false := by
  cases h : mapGet r.fixtures name <;> simp [AutomaticFixtureRegistry.isSetup, h]

/-- Full behaviour of the reverse walk of `cleanupAll` on a duplicate-free
list of eligible names: every entry's teardown is invoked (in list
order), every failure message is collected (in list order), entries
outside the list keep their records, and an entry's record is cleared
exactly when its teardown succeeded. -/
theorem cleanupLoop_spec {α : Type} (l : List String) :
    ∀ (fs : List (String × RegisteredFixture α)),
    l.Nodup → (∀ n ∈ l, eligible fs n = true) →
    (cleanupLoop l fs).2.2 = l.map Ev.teardownCall ∧
    (cleanupLoop l fs).2.1 = l.filterMap (teardownOutcome fs) ∧
    (∀ m, m ∉ l → mapGet (cleanupLoop l fs).1 m = mapGet fs m) ∧
    (∀ n ∈ l, ∃ reg, mapGet fs n = some reg ∧
       mapGet (cleanupLoop l fs).1 n =
         some (if (teardownOutcome fs n).isSome then reg
               else { reg with setup := false, data := none })) := by
  induction l with
  | nil => intro fs _ _; simp [cleanupLoop]
  | cons n rest ih =>
    intro fs hnd helig
    obtain ⟨hnotin, hnd'⟩ := List.nodup_cons.mp hnd
    have hn := helig n (List.mem_cons_self n rest)
    rw [eligible, Bool.and_eq_true] at hn
    obtain ⟨hne0, hn2⟩ := hn
    have hne : ¬ (n = "") := by simpa [bne_iff_ne] using hne0
    cases hreg : mapGet fs n with
    | none => rw [hreg] at hn2; simp at hn2
    | some reg =>
    rw [hreg] at hn2
    simp only [Bool.and_eq_true, Option.isSome_iff_exists] at hn2
    obtain ⟨hsetup, d, hd⟩ := hn2
    have hout : teardownOutcome fs n =
        (match reg.fixture.teardown d with
         | Except.ok _ => none
         | Except.error e => some e) := by
      simp [teardownOutcome, hreg, hd]
    cases htd : reg.fixture.teardown d with
    | ok u =>
      have houtn : teardownOutcome fs n = none := by rw [hout, htd]
      have hmn : ∀ m ∈ rest, m ≠ n := by
        intro m hm he; exact hnotin (he ▸ hm)
      have helig' : ∀ m ∈ rest,
          eligible (mapSet fs n { reg with setup := false, data := none }) m = true := by
        intro m hm
        rw [eligible_mapSet_ne fs n m _ (hmn m hm)]
        exact helig m (List.mem_cons_of_mem n hm)
      have IH := ih (mapSet fs n { reg with setup := false, data := none }) hnd' helig'
      have hred : cleanupLoop (n :: rest) fs =
          (let next := cleanupLoop rest (mapSet fs n { reg with setup := false, data := none })
           (next.1, next.2.1, Ev.teardownCall n :: next.2.2)) := by
        simp [cleanupLoop, hne, hreg, hsetup, hd, htd]
      refine ⟨?_, ?_, ?_, ?_⟩
      · rw [hred]; simp only [List.map_cons]
        exact congrArg (Ev.teardownCall n :: ·) IH.1
      · rw [hred]
        simp only [List.filterMap_cons_none houtn]
        rw [IH.2.1]
        exact List.filterMap_congr (fun m hm =>
          teardownOutcome_mapSet_ne fs n m _ (hmn m hm))
      · intro m hm
        rw [hred]
        simp only []
        rw [IH.2.2.1 m (fun hmem => hm (List.mem_cons_of_mem n hmem))]
        exact mapGet_mapSet_ne fs n m _ (fun he => hm (he ▸ List.mem_cons_self n rest))
      · intro m hm
        rcases List.mem_cons.mp hm with hc | hc
        · subst hc
          refine ⟨reg, hreg, ?_⟩
          rw [hred]
          simp only []
          rw [IH.2.2.1 m hnotin, mapGet_mapSet_self, houtn]
          simp
        · obtain ⟨reg', hreg', hres⟩ := IH.2.2.2 m hc
          refine ⟨reg', ?_, ?_⟩
          · rw [← hreg']; exact (mapGet_mapSet_ne fs n m _ (hmn m hc)).symm
          · rw [hred]
            simp only []
            rw [hres, teardownOutcome_mapSet_ne fs n m _ (hmn m hc)]
    | error e =>
      have houtn : teardownOutcome fs n = some e := by rw [hout, htd]
      have hmn : ∀ m ∈ rest, m ≠ n := by
        intro m hm he; exact hnotin (he ▸ hm)
      have helig' : ∀ m ∈ rest, eligible fs m = true := by
        intro m hm; exact helig m (List.mem_cons_of_mem n hm)
      have IH := ih fs hnd' helig'
      have hred : cleanupLoop (n :: rest) fs =
          (let next := cleanupLoop rest fs
           (next.1, e :: next.2.1, Ev.teardownCall n :: next.2.2)) := by
        simp [cleanupLoop, hne, hreg, hsetup, hd, htd]
      refine ⟨?_, ?_, ?_, ?_⟩
      · rw [hred]; simp only [List.map_cons]
        exact congrArg (Ev.teardownCall n :: ·) IH.1
      · rw [hred]
        simp only [List.filterMap_cons_some houtn]
        exact congrArg (e :: ·) IH.2.1
      · intro m hm
        rw [hred]
        simp only []
        exact IH.2.2.1 m (fun hmem => hm (List.mem_cons_of_mem n hmem))
      · intro m hm
        rcases List.mem_cons.mp hm with hc | hc
        · subst hc
          refine ⟨reg, hreg, ?_⟩
          rw [hred]
          simp only []
          rw [IH.2.2.1 m hnotin, hreg, houtn]
          simp
        · obtain ⟨reg', hreg', hres⟩ := IH.2.2.2 m hc
          exact ⟨reg', hreg', by rw [hred]; simpa using hres⟩

/-- Behaviour of a sequence of first-time successful `setup` calls on
duplicate-free names: the names are appended to the cleanup order in
call order, untouched entries keep their records, and each name's
record stores its produced value with the flag set. -/
theorem setupSequence_spec {α : Type} (names : List String) :
    ∀ (r : AutomaticFixtureRegistry α),
    names.Nodup → (∀ n ∈ names, readyFixture r n) →
    (setupSequence r names).cleanupOrder = r.cleanupOrder ++ names ∧
    (∀ m, m ∉ names → mapGet (setupSequence r names).fixtures m = mapGet r.fixtures m) ∧
    (∀ n ∈ names, ∃ reg v, mapGet r.fixtures n = some reg ∧
        reg.fixture.setup = Except.ok (some v) ∧
        mapGet (setupSequence r names).fixtures n =
          some { reg with data := some v, setup := true }) := by
  induction names with
  | nil => intro r _ _; simp [setupSequence]
  | cons n rest ih =>
    intro r hnd hready
    obtain ⟨hnotin, hnd'⟩ := List.nodup_cons.mp hnd
    obtain ⟨reg, v, hreg, hns, hok⟩ := hready n (List.mem_cons_self n rest)
    have hmn : ∀ m ∈ rest, m ≠ n := by
      intro m hm he; exact hnotin (he ▸ hm)
    have hstep : (r.setup n).2.1 =
        { fixtures := mapSet r.fixtures n { reg with data := some v, setup := true },
          cleanupOrder := r.cleanupOrder ++ [n] } := by
      simp [AutomaticFixtureRegistry.setup, hreg, hns, hok]
    have hready' : ∀ m ∈ rest, readyFixture (r.setup n).2.1 m := by
      intro m hm
      obtain ⟨reg', v', hreg', hns', hok'⟩ := hready m (List.mem_cons_of_mem n hm)
      refine ⟨reg', v', ?_, hns', hok'⟩
      rw [hstep]
      simpa [mapGet_mapSet_ne r.fixtures n m _ (hmn m hm)] using hreg'
    have IH := ih (r.setup n).2.1 hnd' hready'
    have hseq : setupSequence r (n :: rest) = setupSequence (r.setup n).2.1 rest := by
      simp [setupSequence]
    refine ⟨?_, ?_, ?_⟩
    · rw [hseq, IH.1, hstep]
      simp
    · intro m hm
      rw [hseq, IH.2.1 m (fun hmem => hm (List.mem_cons_of_mem n hmem)), hstep]
      exact mapGet_mapSet_ne r.fixtures n m _
        (fun he => hm (he ▸ List.mem_cons_self n rest))
    · intro m hm
      rcases List.mem_cons.mp hm with hc | hc
      · subst hc
        refine ⟨reg, v, hreg, hok, ?_⟩
        rw [hseq, IH.2.1 m hnotin, hstep]
        exact mapGet_mapSet_self r.fixtures m _
      · obtain ⟨reg', v', hreg', hok', hres⟩ := IH.2.2 m hc
        refine ⟨reg', v', ?_, hok', by rw [hseq]; exact hres⟩
        rw [hstep] at hreg'
        rwa [mapGet_mapSet_ne r.fixtures n m _ (hmn m hc)] at hreg'

/-- The teardown invocations of `cleanupAll` are those of the reverse
walk, whether or not the aggregated error is thrown. -/
theorem cleanupAll_events {α : Type} (r : AutomaticFixtureRegistry α) :
    (r.cleanupAll).2.2 = (cleanupLoop r.cleanupOrder.reverse r.fixtures).2.2 := by
  simp only [AutomaticFixtureRegistry.cleanupAll]
  split <;> rfl

/-- The fixture map after `cleanupAll` is that of the reverse walk,
whether or not the aggregated error is thrown. -/
theorem cleanupAll_fixtures {α : Type} (r : AutomaticFixtureRegistry α) :
    (r.cleanupAll).2.1.fixtures = (cleanupLoop r.cleanupOrder.reverse r.fixtures).1 := by
  simp only [AutomaticFixtureRegistry.cleanupAll]
  split <;> rfl

/-- The cleanup order is reset to empty by `cleanupAll`, whether or not
the aggregated error is thrown. -/
theorem cleanupAll_resets_order {α : Type} (r : AutomaticFixtureRegistry α) :
    (r.cleanupAll).2.1.cleanupOrder = [] := by
  simp only [AutomaticFixtureRegistry.cleanupAll]
  split <;> rfl

/-- The result of `cleanupAll` is determined by the errors collected by
the reverse walk. -/
theorem cleanupAll_result {α : Type} (r : AutomaticFixtureRegistry α) :
    (r.cleanupAll).1 =
      (if 0 < (cleanupLoop r.cleanupOrder.reverse r.fixtures).2.1.length then
        Except.error (aggregateMessage (cleanupLoop r.cleanupOrder.reverse r.fixtures).2.1)
      else Except.ok ()) := by
  simp only [AutomaticFixtureRegistry.cleanupAll]
  split <;> simp_all

/-- Claim C1 counterexample: with fixtures `a`, `b`, `c` successfully
set up and only `b`'s teardown throwing, `cleanupAll` leaves `b` still
reporting `isSetUp == true` with its instance still retrievable —
refuting the claim that all three fixtures report `isSetUp == false`
with their instance references dropped. -/
theorem cleanupAll_failed_teardown_not_cleared_counterexample :
    (demoABC.cleanupAll).2.1.isSetup "a" = false ∧
    (demoABC.cleanupAll).2.1.isSetup "c" = false ∧
    (demoABC.cleanupAll).2.1.isSetup "b" = true ∧
    (demoABC.cleanupAll).2.1.get "b" = Except.ok 2 :=
  ⟨by decide, by decide, by decide, by rfl⟩

/-- Claim C1 (amended): `cleanupAll` clears the `isSetUp` flag and
drops the instance reference exactly for the fixtures whose teardown
succeeded; a fixture whose teardown threw keeps its flag and its
instance (only its cleanup-order entry is discarded). -/
theorem cleanupAll_clears_exactly_successful {α : Type}
    (r : AutomaticFixtureRegistry α)
    (hnd : r.cleanupOrder.Nodup)
    (helig : ∀ n ∈ r.cleanupOrder, eligible r.fixtures n = true)
    (n : String) (hn : n ∈ r.cleanupOrder) :
    (r.cleanupAll).2.1.isSetup n = (teardownOutcome r.fixtures n).isSome ∧
    (∃ reg, mapGet r.fixtures n = some reg ∧
      mapGet (r.cleanupAll).2.1.fixtures n =
        some (if (teardownOutcome r.fixtures n).isSome then reg
              else { reg with setup := false, data := none })) := by
  have hndr : r.cleanupOrder.reverse.Nodup := List.nodup_reverse.mpr hnd
  have heligr : ∀ m ∈ r.cleanupOrder.reverse, eligible r.fixtures m = true := by
    intro m hm; exact helig m (List.mem_reverse.mp hm)
  have hspec := cleanupLoop_spec r.cleanupOrder.reverse r.fixtures hndr heligr
  obtain ⟨reg, hreg, hres⟩ := hspec.2.2.2 n (List.mem_reverse.mpr hn)
  have hsetupflag : reg.setup = true := by
    have := helig n hn
    rw [eligible, Bool.and_eq_true] at this
    rcases this with ⟨_, h2⟩
    rw [hreg, Bool.and_eq_true] at h2
    exact h2.1
  have hmain : mapGet (r.cleanupAll).2.1.fixtures n =
      some (if (teardownOutcome r.fixtures n).isSome then reg
            else { reg with setup := false, data := none }) := by
    rw [cleanupAll_fixtures]; exact hres
  refine ⟨?_, reg, hreg, hmain⟩
  rw [AutomaticFixtureRegistry.isSetup]
  rw [hmain]
  cases houtcome : (teardownOutcome r.fixtures n).isSome <;> simp [houtcome, hsetupflag]

/-- Claim C1 witness: applying the amended theorem to the `a`, `b`,
`c` scenario at the failing fixture `b`. -/
theorem cleanupAll_clears_exactly_successful_witness :
    ("b" ∈ demoABC.cleanupOrder) ∧
    (teardownOutcome demoABC.fixtures "b").isSome = true ∧
    (demoABC.cleanupAll).2.1.isSetup "b" = (teardownOutcome demoABC.fixtures "b").isSome :=
  ⟨by decide, by decide,
   (cleanupAll_clears_exactly_successful demoABC (by decide) (by decide) "b" (by decide)).1⟩

/-- Claim C2: running `setup` for a duplicate-free sequence of fresh
names (registered, not yet set up, producers resolving to non-null
values) in call order and then `cleanupAll` invokes the teardowns in
exactly the reverse of the call order, irrespective of any `get`
accesses (which do not change registry state). -/
theorem cleanupAll_teardown_reverse_of_setup_order {α : Type}
    (r : AutomaticFixtureRegistry α) (names : List String)
    (hnd : names.Nodup) (hne : ∀ n ∈ names, n ≠ "")
    (hready : ∀ n ∈ names, readyFixture r n)
    (hord : r.cleanupOrder = []) :
    ((setupSequence r names).cleanupAll).2.2 =
      names.reverse.map Ev.teardownCall := by
  obtain ⟨h1, _, h3⟩ := setupSequence_spec names r hnd hready
  have horder : (setupSequence r names).cleanupOrder = names := by
    rw [h1, hord, List.nil_append]
  have helig : ∀ n ∈ (setupSequence r names).cleanupOrder.reverse,
      eligible (setupSequence r names).fixtures n = true := by
    intro n hn
    rw [horder, List.mem_reverse] at hn
    obtain ⟨reg, v, _, _, hres⟩ := h3 n hn
    simp [eligible, hres, bne_iff_ne, hne n hn]
  have hndr : (setupSequence r names).cleanupOrder.reverse.Nodup := by
    rw [horder]; exact List.nodup_reverse.mpr hnd
  have hspec := cleanupLoop_spec (setupSequence r names).cleanupOrder.reverse
    (setupSequence r names).fixtures hndr helig
  rw [cleanupAll_events, hspec.1, horder]

/-- Claim C2 witness: the `a`, `b`, `c` setup sequence tears down in
order `c`, `b`, `a`. -/
theorem cleanupAll_teardown_reverse_witness :
    (["a", "b", "c"] : List String).Nodup ∧
    ((setupSequence demoRegistered ["a", "b", "c"]).cleanupAll).2.2 =
      (["a", "b", "c"] : List String).reverse.map Ev.teardownCall := by
  refine ⟨by decide, cleanupAll_teardown_reverse_of_setup_order demoRegistered _
    (by decide) (by decide) ?_ rfl⟩
  intro n hn
  simp only [List.mem_cons, List.not_mem_nil, or_false] at hn
  rcases hn with rfl | rfl | rfl
  · exact ⟨{ fixture := okFixture 1, data := none, setup := false }, 1, rfl, rfl, rfl⟩
  · exact ⟨{ fixture := badTeardownFixture 2 "boom", data := none, setup := false }, 2,
      rfl, rfl, rfl⟩
  · exact ⟨{ fixture := okFixture 3, data := none, setup := false }, 3, rfl, rfl, rfl⟩

/-- Claim C3: on a duplicate-free cleanup order of eligible entries,
`cleanupAll` attempts every entry's teardown (in reverse order) without
short-circuiting, resets the cleanup order to empty, succeeds when no
teardown threw, and otherwise throws a single error whose message joins
the collected messages — with exactly one failing teardown the
aggregate carries exactly that one error. -/
theorem cleanupAll_aggregates_after_all_teardowns {α : Type}
    (r : AutomaticFixtureRegistry α)
    (hnd : r.cleanupOrder.Nodup)
    (helig : ∀ n ∈ r.cleanupOrder, eligible r.fixtures n = true) :
    (r.cleanupAll).2.2 = r.cleanupOrder.reverse.map Ev.teardownCall ∧
    (r.cleanupAll).2.1.cleanupOrder = [] ∧
    (r.cleanupOrder.reverse.filterMap (teardownOutcome r.fixtures) = [] →
      (r.cleanupAll).1 = Except.ok ()) ∧
    (∀ errs, r.cleanupOrder.reverse.filterMap (teardownOutcome r.fixtures) = errs →
      errs ≠ [] → (r.cleanupAll).1 = Except.error (aggregateMessage errs)) := by
  have hndr : r.cleanupOrder.reverse.Nodup := List.nodup_reverse.mpr hnd
  have heligr : ∀ m ∈ r.cleanupOrder.reverse, eligible r.fixtures m = true := by
    intro m hm; exact helig m (List.mem_reverse.mp hm)
  have hspec := cleanupLoop_spec r.cleanupOrder.reverse r.fixtures hndr heligr
  refine ⟨by rw [cleanupAll_events, hspec.1], cleanupAll_resets_order r, ?_, ?_⟩
  · intro hempty
    rw [cleanupAll_result, hspec.2.1, hempty]
    simp
  · intro errs herrs hne
    rw [cleanupAll_result, hspec.2.1, herrs]
    have : 0 < errs.length := List.length_pos.mpr hne
    simp [this]

/-- Claim C3 witness: in the `a`, `b`, `c` scenario with only `b`'s
teardown throwing, all three teardowns are attempted and `cleanupAll`
throws the aggregate of exactly one error. -/
theorem cleanupAll_aggregates_witness :
    demoABC.cleanupOrder.reverse.filterMap (teardownOutcome demoABC.fixtures) = ["boom"] ∧
    (demoABC.cleanupAll).1 = Except.error (aggregateMessage ["boom"]) ∧
    aggregateMessage ["boom"] = "Failed to cleanup 1 fixture(s): boom" :=
  ⟨by decide,
   (cleanupAll_aggregates_after_all_teardowns demoABC (by decide) (by decide)).2.2.2
     ["boom"] (by decide) (by decide),
   by rfl⟩

/-- Claim C4: for a registered fixture that is not yet set up and whose
producer resolves, two consecutive `setup` calls invoke the producer
exactly once (the first call only), return the same instance both
times, append the name to the cleanup order exactly once, and leave the
registry untouched after the second call. -/
theorem setup_idempotent_get_or_create {α : Type} (r : AutomaticFixtureRegistry α)
    (name : String) (reg : RegisteredFixture α) (d : Option α)
    (hreg : mapGet r.fixtures name = some reg)
    (hns : reg.setup = false)
    (hok : reg.fixture.setup = Except.ok d) :
    (r.setup name).1 = Except.ok d ∧
    (r.setup name).2.2 = [Ev.setupCall name] ∧
    ((r.setup name).2.1.setup name).1 = Except.ok d ∧
    ((r.setup name).2.1.setup name).2.2 = [] ∧
    ((r.setup name).2.1.setup name).2.1 = (r.setup name).2.1 ∧
    (r.setup name).2.1.cleanupOrder = r.cleanupOrder ++ [name] := by
  have hstep : r.setup name =
      (Except.ok d,
       { fixtures := mapSet r.fixtures name { reg with data := d, setup := true },
         cleanupOrder := r.cleanupOrder ++ [name] },
       [Ev.setupCall name]) := by
    simp [AutomaticFixtureRegistry.setup, hreg, hns, hok]
  have hget2 : mapGet (r.setup name).2.1.fixtures name =
      some { reg with data := d, setup := true } := by
    rw [hstep]; exact mapGet_mapSet_self ..
  have hsecond : ∀ (r1 : AutomaticFixtureRegistry α),
      mapGet r1.fixtures name = some { reg with data := d, setup := true } →
      r1.setup name = (Except.ok d, r1, []) := by
    intro r1 hg
    simp [AutomaticFixtureRegistry.setup, hg]
  refine ⟨by rw [hstep], by rw [hstep], ?_, ?_, ?_, by rw [hstep]⟩
  all_goals rw [hsecond _ hget2]

/-- Claim C4 witness: a double `setup` of fixture `a` in the demo
registry — the second call performs no producer invocation. -/
theorem setup_idempotent_witness :
    (mapGet demoRegistered.fixtures "a" =
      some { fixture := okFixture 1, data := none, setup := false }) ∧
    ((demoRegistered.setup "a").2.1.setup "a").1 = Except.ok (some 1) ∧
    ((demoRegistered.setup "a").2.1.setup "a").2.2 = [] :=
  ⟨rfl,
   (setup_idempotent_get_or_create demoRegistered "a" _ (some 1) rfl rfl rfl).2.2.1,
   (setup_idempotent_get_or_create demoRegistered "a" _ (some 1) rfl rfl rfl).2.2.2.1⟩

/-- Claim C7: when the producer of a registered, not-yet-set-up fixture
throws, `setup` propagates the failure, the registry is left literally
unchanged (so the fixture is not marked set up and its name is not
appended to the cleanup order), and a later `setup` call invokes the
producer again. -/
theorem setup_failure_propagates_no_poison {α : Type} (r : AutomaticFixtureRegistry α)
    (name : String) (reg : RegisteredFixture α) (e : String)
    (hreg : mapGet r.fixtures name = some reg)
    (hns : reg.setup = false)
    (herr : reg.fixture.setup = Except.error e) :
    r.setup name = (Except.error e, r, [Ev.setupCall name]) ∧
    r.isSetup name = false ∧
    ((r.setup name).2.1.setup name).2.2 = [Ev.setupCall name] := by
  have hstep : r.setup name = (Except.error e, r, [Ev.setupCall name]) := by
    simp [AutomaticFixtureRegistry.setup, hreg, hns, herr]
  refine ⟨hstep, ?_, ?_⟩
  · simp [AutomaticFixtureRegistry.isSetup, hreg, hns]
  · rw [hstep]
    simp [AutomaticFixtureRegistry.setup, hreg, hns, herr]

/-- Claim C7 witness: a fixture whose producer rejects with `"nope"`;
the error propagates, the registry is unchanged, and the retry invokes
the producer again. -/
theorem setup_failure_witness :
    (mapGet demoFailing.fixtures "f" =
      some { fixture := badSetupFixture "nope", data := none, setup := false }) ∧
    demoFailing.setup "f" = (Except.error "nope", demoFailing, [Ev.setupCall "f"]) ∧
    ((demoFailing.setup "f").2.1.setup "f").2.2 = [Ev.setupCall "f"] :=
  ⟨rfl,
   (setup_failure_propagates_no_poison demoFailing "f" _ "nope" rfl rfl rfl).1,
   (setup_failure_propagates_no_poison demoFailing "f" _ "nope" rfl rfl rfl).2.2⟩

/-- Claim C8 counterexample: re-registering the currently-set-up
fixture `a` makes it report not set up and makes `get` fail — refuting
the claim that the instance bookkeeping is unaffected and the existing
instance stays retrievable. -/
theorem register_overwrite_counterexample :
    demoRegA.isSetup "a" = true ∧
    demoRegA.get "a" = Except.ok 1 ∧
    (demoRegA.register "a" (okFixture 9)).isSetup "a" = false ∧
    (demoRegA.register "a" (okFixture 9)).get "a" =
      Except.error (notSetupMessage "a") :=
  ⟨by decide, by rfl, by decide, by rfl⟩

/-- Claim C8 (amended): `register` on an already-registered name never
errors and replaces the stored definition, but it also resets the
instance bookkeeping of that name — the fixture reports not set up and
its instance is no longer retrievable via `get` — while the name's
entry in the cleanup-order sequence is left as it is. -/
theorem register_resets_instance_bookkeeping {α : Type}
    (r : AutomaticFixtureRegistry α) (name : String) (f : Fixture α) :
    mapGet (r.register name f).fixtures name =
      some { fixture := f, data := none, setup := false } ∧
    (r.register name f).isSetup name = false ∧
    (r.register name f).get name = Except.error (notSetupMessage name) ∧
    (r.register name f).cleanupOrder = r.cleanupOrder := by
  have h : mapGet (r.register name f).fixtures name =
      some { fixture := f, data := none, setup := false } := mapGet_mapSet_self ..
  refine ⟨h, ?_, ?_, rfl⟩
  · simp [AutomaticFixtureRegistry.isSetup, h]
  · simp [AutomaticFixtureRegistry.get, h]

/-- Claim C10: a fixture whose producer resolves to `null` completes
`setup` (marked set up, name appended to the cleanup order), yet `get`
throws the not-setup error and `cleanupAll` skips the fixture without
invoking its teardown. -/
theorem setup_null_marks_but_get_fails {α : Type} (r : AutomaticFixtureRegistry α)
    (name : String) (reg : RegisteredFixture α)
    (hreg : mapGet r.fixtures name = some reg)
    (hns : reg.setup = false)
    (hok : reg.fixture.setup = Except.ok none)
    (hord : r.cleanupOrder = []) :
    (r.setup name).1 = Except.ok none ∧
    (r.setup name).2.1.isSetup name = true ∧
    (r.setup name).2.1.cleanupOrder = [name] ∧
    (r.setup name).2.1.get name = Except.error (notSetupMessage name) ∧
    ((r.setup name).2.1.cleanupAll).2.2 = [] ∧
    ((r.setup name).2.1.cleanupAll).1 = Except.ok () := by
  have hstep : r.setup name =
      (Except.ok none,
       { fixtures := mapSet r.fixtures name { reg with data := none, setup := true },
         cleanupOrder := r.cleanupOrder ++ [name] },
       [Ev.setupCall name]) := by
    simp [AutomaticFixtureRegistry.setup, hreg, hns, hok]
  have hget2 : mapGet (r.setup name).2.1.fixtures name =
      some { reg with data := none, setup := true } := by
    rw [hstep]; exact mapGet_mapSet_self ..
  have horder2 : (r.setup name).2.1.cleanupOrder = [name] := by
    rw [hstep]; simp [hord]
  have hloop : cleanupLoop [name] (r.setup name).2.1.fixtures =
      ((r.setup name).2.1.fixtures, [], []) := by
    by_cases hname : name = ""
    · simp [cleanupLoop, hname]
    · simp [cleanupLoop, hname, hget2]
  refine ⟨by rw [hstep], ?_, horder2, ?_, ?_, ?_⟩
  · simp [AutomaticFixtureRegistry.isSetup, hget2]
  · simp [AutomaticFixtureRegistry.get, hget2]
  · rw [cleanupAll_events, horder2]
    simp [hloop]
  · rw [cleanupAll_result, horder2]
    simp [hloop]

/-- Claim C10 witness: the `null`-producing fixture `n`. -/
theorem setup_null_witness :
    (mapGet demoNull.fixtures "n" =
      some { fixture := nullFixture, data := none, setup := false }) ∧
    (demoNull.setup "n").2.1.isSetup "n" = true ∧
    (demoNull.setup "n").2.1.get "n" = Except.error (notSetupMessage "n") ∧
    ((demoNull.setup "n").2.1.cleanupAll).2.2 = [] :=
  ⟨rfl,
   (setup_null_marks_but_get_fails demoNull "n" _ rfl rfl rfl rfl).2.1,
   (setup_null_marks_but_get_fails demoNull "n" _ rfl rfl rfl rfl).2.2.2.1,
   (setup_null_marks_but_get_fails demoNull "n" _ rfl rfl rfl rfl).2.2.2.2.1⟩

/-- Claim C9 counterexample: with fixture `a` (producer 50ms) and `b`
(producer 10ms) registered in that order, the concurrent `beforeEach`
records cleanup order `["b", "a"]` — the producer-completion order —
refuting the claimed `["a", "b"]`. -/
theorem beforeEach_completion_order_counterexample :
    (beforeEachConcurrent slowFastRegistry durAB ["a", "b"]).1.cleanupOrder =
      ["b", "a"] ∧
    (beforeEachConcurrent slowFastRegistry durAB ["a", "b"]).1.cleanupOrder ≠
      ["a", "b"] :=
  ⟨by decide, by decide⟩

/-- Claim C9 (amended): in the 50ms/10ms scenario, `beforeEach`
resolves only after both producers complete (both fixtures end up set
up and no rejection is raised), and the recorded cleanup order is the
producer-completion order `["b", "a"]` — not the registration order. -/
theorem beforeEach_resolves_after_both_in_completion_order :
    (beforeEachConcurrent slowFastRegistry durAB ["a", "b"]).2 = [] ∧
    (beforeEachConcurrent slowFastRegistry durAB ["a", "b"]).1.isSetup "a" = true ∧
    (beforeEachConcurrent slowFastRegistry durAB ["a", "b"]).1.isSetup "b" = true ∧
    (beforeEachConcurrent slowFastRegistry durAB ["a", "b"]).1.cleanupOrder =
      ["b", "a"] :=
  ⟨by decide, by decide, by decide, by decide⟩

/-- The timer steps (d)-(e) of `afterEach` do not touch the registry,
the console counter, the capture, or the reported teardown events. -/
theorem afterEachFromD_preserves {α : Type} (guards : LifecycleGuards)
    (w : LifecycleWorld α) (evs : List Ev) :
    (afterEachFromD guards w evs).2.1.registry = w.registry ∧
    (afterEachFromD guards w evs).2.1.consoleAfterEachRuns = w.consoleAfterEachRuns ∧
    (afterEachFromD guards w evs).2.1.capture = w.capture ∧
    (afterEachFromD guards w evs).2.2 = evs := by
  rw [afterEachFromD]
  split
  · split
    · exact ⟨rfl, rfl, rfl, rfl⟩
    · exact ⟨rfl, rfl, rfl, rfl⟩
  · exact ⟨rfl, rfl, rfl, rfl⟩

/-- The timer steps (d)-(e) of `afterEach` install the real clock
exactly when they do not throw; a timer-leak throw leaves the clock
as it was (only the pending timers are cleared). -/
theorem afterEachFromD_timers {α : Type} (guards : LifecycleGuards)
    (w : LifecycleWorld α) (evs : List Ev) :
    ((afterEachFromD guards w evs).1 = Except.ok () →
      (afterEachFromD guards w evs).2.1.usingFakeTimers = false) ∧
    (∀ e, (afterEachFromD guards w evs).1 = Except.error e →
      (afterEachFromD guards w evs).2.1.usingFakeTimers = w.usingFakeTimers) := by
  rw [afterEachFromD]
  split
  · split
    · exact ⟨fun h => Except.noConfusion h, fun e _ => rfl⟩
    · exact ⟨fun _ => rfl, fun e h => Except.noConfusion h⟩
  · exact ⟨fun _ => rfl, fun e h => Except.noConfusion h⟩

/-- Steps (b)-(e) of `afterEach` install the real clock exactly when no
remaining step throws; a throwing fixture cleanup or timer-leak guard
leaves the previously installed clock in place. -/
theorem afterEachFromB_timers {α : Type} (hc hf : Bool)
    (guards : LifecycleGuards) (w : LifecycleWorld α) :
    ((afterEachFromB hc hf guards w).1 = Except.ok () →
      (afterEachFromB hc hf guards w).2.1.usingFakeTimers = false) ∧
    (∀ e, (afterEachFromB hc hf guards w).1 = Except.error e →
      (afterEachFromB hc hf guards w).2.1.usingFakeTimers = w.usingFakeTimers) := by
  have hw1 : ((if hc = true then consoleAfterEachModel w else w) :
      LifecycleWorld α).usingFakeTimers = w.usingFakeTimers := by
    split <;> rfl
  simp only [afterEachFromB]
  split
  · split
    · exact ⟨fun h => Except.noConfusion h, fun e _ => hw1⟩
    · refine ⟨?_, ?_⟩
      · intro h
        exact (afterEachFromD_timers guards _ _).1 h
      · intro e h
        rw [(afterEachFromD_timers guards _ _).2 e h]
        exact hw1
  · refine ⟨?_, ?_⟩
    · intro h
      exact (afterEachFromD_timers guards _ _).1 h
    · intro e h
      rw [(afterEachFromD_timers guards _ _).2 e h]
      exact hw1

/-- Claim C5 counterexample: with the console-noise guard enabled and
one captured entry, `afterEach` throws the noise error while the
capture handle's own `afterEach` has not run (counter still 0), no
teardown was invoked, and the set-up fixture is still set up — refuting
the claim that steps (b) and (c) execute even when the guard raises. -/
theorem consoleGuard_throw_skips_later_steps_counterexample :
    (strictAfterEach true true demoGuards noisyWorld).1 =
      Except.error (noiseMessage [ConsoleEntry.leveled "log" "hello"]) ∧
    (strictAfterEach true true demoGuards noisyWorld).2.1.consoleAfterEachRuns = 0 ∧
    (strictAfterEach true true demoGuards noisyWorld).2.2 = [] ∧
    (strictAfterEach true true demoGuards noisyWorld).2.1.registry.isSetup "a" = true :=
  ⟨by rfl, by decide, by decide, by decide⟩

/-- Claim C5 (amended): the capture handle's own `afterEach` and the
fixture cleanup run only when the console-noise guard does not raise:
whenever the capture holds no entries (so the guard passes or is
disabled), step (b) runs the console hook once and step (c) performs
the fixture cleanup; when the guard raises, `afterEach` returns
immediately and neither step executes. -/
theorem consoleHook_and_cleanup_run_when_guard_passes {α : Type}
    (guards : LifecycleGuards) (w : LifecycleWorld α)
    (hcap : w.capture = some []) :
    (strictAfterEach true true guards w).2.1.consoleAfterEachRuns =
      w.consoleAfterEachRuns + 1 ∧
    (strictAfterEach true true guards w).2.1.registry = (w.registry.cleanupAll).2.1 ∧
    (strictAfterEach true true guards w).2.2 = (w.registry.cleanupAll).2.2 := by
  have hB : strictAfterEach true true guards w = afterEachFromB true true guards w := by
    by_cases hg : guards.failOnConsoleNoise = true
    · simp [strictAfterEach, hg, hcap]
    · simp [strictAfterEach, hg]
  have hval : afterEachFromB true true guards w =
      (match (w.registry.cleanupAll).1 with
       | Except.error e =>
         (Except.error e,
          { consoleAfterEachModel w with registry := (w.registry.cleanupAll).2.1 },
          (w.registry.cleanupAll).2.2)
       | Except.ok _ =>
         afterEachFromD guards
           { consoleAfterEachModel w with registry := (w.registry.cleanupAll).2.1 }
           (w.registry.cleanupAll).2.2) := rfl
  rcases hc : w.registry.cleanupAll with ⟨res, r2, evs⟩
  rw [hB, hval, hc]
  cases res with
  | error e => exact ⟨rfl, rfl, rfl⟩
  | ok u =>
    obtain ⟨hp1, hp2, _, hp4⟩ := afterEachFromD_preserves guards
      { consoleAfterEachModel w with registry := r2 } evs
    exact ⟨hp2, hp1, hp4⟩

/-- Claim C5 witness: in the quiet world the console hook runs once
and the fixture cleanup tears the fixture down. -/
theorem consoleHook_runs_witness :
    quietWorld.capture = some [] ∧
    (strictAfterEach true true demoGuards quietWorld).2.1.consoleAfterEachRuns =
      quietWorld.consoleAfterEachRuns + 1 ∧
    (strictAfterEach true true demoGuards quietWorld).2.2 =
      (quietWorld.registry.cleanupAll).2.2 :=
  ⟨rfl,
   (consoleHook_and_cleanup_run_when_guard_passes demoGuards quietWorld rfl).1,
   (consoleHook_and_cleanup_run_when_guard_passes demoGuards quietWorld rfl).2.2⟩

/-- Claim C6 counterexample: under the fake-timer policy, a
console-noise throw makes `afterEach` return with the fake clock still
installed — refuting the claim that every invocation reverts the timer
policy to the real clock before returning control. -/
theorem afterEach_stale_fake_clock_counterexample :
    noisyWorld.usingFakeTimers = true ∧
    (strictAfterEach true true demoGuards noisyWorld).1 =
      Except.error (noiseMessage [ConsoleEntry.leveled "log" "hello"]) ∧
    (strictAfterEach true true demoGuards noisyWorld).2.1.usingFakeTimers = true :=
  ⟨rfl, by rfl, by decide⟩

/-- Claim C6 (amended): `afterEach` reverts to the real clock exactly
on its non-throwing path: when it completes without throwing the fake
clock is uninstalled, and when the console-noise guard, the fixture
cleanup, or the timer-leak guard throws, the previously installed
clock is left untouched. -/
theorem afterEach_reverts_timers_iff_completes {α : Type}
    (hasConsole hasFixtures : Bool) (guards : LifecycleGuards)
    (w : LifecycleWorld α) :
    ((strictAfterEach hasConsole hasFixtures guards w).1 = Except.ok () →
      (strictAfterEach hasConsole hasFixtures guards w).2.1.usingFakeTimers = false) ∧
    (∀ e, (strictAfterEach hasConsole hasFixtures guards w).1 = Except.error e →
      (strictAfterEach hasConsole hasFixtures guards w).2.1.usingFakeTimers =
        w.usingFakeTimers) := by
  simp only [strictAfterEach]
  split
  · split
    · exact ⟨fun h => Except.noConfusion h, fun e _ => rfl⟩
    · split
      · exact ⟨fun h => Except.noConfusion h, fun e _ => rfl⟩
      · exact afterEachFromB_timers hasConsole hasFixtures guards w
  · exact afterEachFromB_timers hasConsole hasFixtures guards w

/-- Claim C6 witness: the quiet world completes `afterEach` without
throwing and ends on the real clock. -/
theorem afterEach_reverts_timers_witness :
    (strictAfterEach true true demoGuards quietWorld).1 = Except.ok () ∧
    (strictAfterEach true true demoGuards quietWorld).2.1.usingFakeTimers = false :=
  ⟨by rfl,
   (afterEach_reverts_timers_iff_completes true true demoGuards quietWorld).1 (by rfl)⟩
